import Mathlib

/-!
Verification of the `Equation` click-counter widget
(src/src/app/(home)/components/Equation/Equation.tsx).

The component holds two React state cells, `leftCount` and `middleCount`,
both `useState<number>(0)`.  Clicking the left box runs
`setLeftCount(leftCount + 1)`, clicking the middle box runs
`setMiddleCount(middleCount + 1)`, and the right box renders the derived
value `totalCount = leftCount + middleCount` and has no click handler.
We embed the component state as a structure over `Int` (the counters only
ever hold integer values) and each event handler as a total function on
that state.
-/

/-- The React state of the `Equation` component: the two `useState` cells
`leftCount` and `middleCount` (Equation.tsx lines 7-8). -/
structure EquationState where
  leftCount : Int
  middleCount : Int
  deriving DecidableEq, Repr

/-- Initial state: both `useState<number>(0)` cells start at zero. -/
def initState : EquationState := ⟨0, 0⟩

/-- `updateLeftCount` (Equation.tsx lines 10-12): runs
`setLeftCount(leftCount + 1)`, leaving `middleCount` untouched. -/
def updateLeftCount (s : EquationState) : EquationState :=
  { s with leftCount := s.leftCount + 1 }

/-- `updateMiddleCount` (Equation.tsx lines 14-16): runs
`setMiddleCount(middleCount + 1)`, leaving `leftCount` untouched. -/
def updateMiddleCount (s : EquationState) : EquationState :=
  { s with middleCount := s.middleCount + 1 }

/-- `totalCount` (Equation.tsx line 18): recomputed from the two counters
on every render, never stored. -/
def totalCount (s : EquationState) : Int :=
  s.leftCount + s.middleCount

/-- The two clickable regions wired to handlers in the rendered output. -/
inductive Click where
  | left
  | middle
  deriving DecidableEq, Repr

/-- Dispatch one click to its handler: the left box's `onClick` is
`updateLeftCount`, the middle box's is `updateMiddleCount`. -/
def applyClick (c : Click) (s : EquationState) : EquationState :=
  match c with
  | .left => updateLeftCount s
  | .middle => updateMiddleCount s

/-- Apply a sequence of clicks in order (each event is handled
synchronously to completion before the next). -/
def applyClicks (cs : List Click) (s : EquationState) : EquationState :=
  cs.foldl (fun t c => applyClick c t) s

/-- The observable read of the widget: the three rendered numbers
`(leftCount, middleCount, totalCount)` (Equation.tsx lines 22-29). -/
def read (s : EquationState) : Int × Int × Int :=
  (s.leftCount, s.middleCount, totalCount s)

/-- All three rendered regions, including the right box showing the total. -/
inductive Region where
  | boxLeft
  | boxMiddle
  | boxRight
  deriving DecidableEq, Repr

/-- The `onClick` wiring of the render (Equation.tsx lines 22-29):
the left and middle boxes have handlers, `sample-box-right` has none. -/
def regionHandler (r : Region) : Option (EquationState → EquationState) :=
  match r with
  | .boxLeft => some updateLeftCount
  | .boxMiddle => some updateMiddleCount
  | .boxRight => none

/-- Clicking a rendered region: run its handler if it has one, otherwise
the event changes nothing. -/
def clickRegion (r : Region) (s : EquationState) : EquationState :=
  match regionHandler r with
  | some f => f s
  | none => s

/-- C1: after any sequence of clicks from the initial state, the displayed
total equals left + middle; the total is recomputed from the two counters
at each read (it is the function `totalCount`, not a third state cell). -/
theorem total_is_sum_always (cs : List Click) :
    (read (applyClicks cs initState)).2.2 =
      (read (applyClicks cs initState)).1 + (read (applyClicks cs initState)).2.1 := by
  rfl

/-- Helper: the effect of a click sequence on the left counter is to add
the number of left clicks. -/
theorem applyClicks_leftCount (cs : List Click) (s : EquationState) :
    (applyClicks cs s).leftCount = s.leftCount + cs.count Click.left := by
  induction cs generalizing s with
  | nil => simp [applyClicks]
  | cons c cs ih =>
    simp only [applyClicks, List.foldl_cons] at *
    rw [ih]
    cases c <;>
      simp [applyClick, updateLeftCount, updateMiddleCount, List.count_cons] <;>
      ring

/-- Helper: the effect of a click sequence on the middle counter is to add
the number of middle clicks. -/
theorem applyClicks_middleCount (cs : List Click) (s : EquationState) :
    (applyClicks cs s).middleCount = s.middleCount + cs.count Click.middle := by
  induction cs generalizing s with
  | nil => simp [applyClicks]
  | cons c cs ih =>
    simp only [applyClicks, List.foldl_cons] at *
    rw [ih]
    cases c <;>
      simp [applyClick, updateLeftCount, updateMiddleCount, List.count_cons] <;>
      ring

/-- C2: any interleaving of exactly n left clicks and m middle clicks,
started from the initial state, ends with left = n, middle = m and the
displayed triple (n, m, n + m). -/
theorem clicks_yield_counts (cs : List Click) (n m : Nat)
    (hn : cs.count Click.left = n) (hm : cs.count Click.middle = m) :
    read (applyClicks cs initState) = ((n : Int), (m : Int), (n : Int) + m) := by
  subst hn hm
  have h1 : (applyClicks cs initState).leftCount = (cs.count Click.left : Int) := by
    rw [applyClicks_leftCount]; simp [initState]
  have h2 : (applyClicks cs initState).middleCount = (cs.count Click.middle : Int) := by
    rw [applyClicks_middleCount]; simp [initState]
  show ((applyClicks cs initState).leftCount, (applyClicks cs initState).middleCount,
      (applyClicks cs initState).leftCount + (applyClicks cs initState).middleCount) = _
  rw [h1, h2]

/-- Witness for C2: two left clicks interleaved with three middle clicks
display 2, 3, 5. -/
theorem clicks_yield_counts_witness :
    read (applyClicks [.left, .middle, .left, .middle, .middle] initState) =
      ((2 : Int), (3 : Int), (2 : Int) + 3) :=
  clicks_yield_counts [.left, .middle, .left, .middle, .middle] 2 3 (by decide) (by decide)

/-- C3: before any interaction both counters are zero and the displayed
total is zero. -/
theorem initial_state_zero :
    read initState = (0, 0, 0) := by
  rfl

/-- C4: from every state, a single increment increases the selected
counter by exactly one. -/
theorem increment_adds_one (s : EquationState) :
    (updateLeftCount s).leftCount = s.leftCount + 1 ∧
      (updateMiddleCount s).middleCount = s.middleCount + 1 :=
  ⟨rfl, rfl⟩

/-- Helper: each single click leaves both counters at least as large. -/
theorem applyClick_mono (c : Click) (s : EquationState) :
    s.leftCount ≤ (applyClick c s).leftCount ∧
      s.middleCount ≤ (applyClick c s).middleCount := by
  cases c <;>
    simp [applyClick, updateLeftCount, updateMiddleCount]

/-- C5: every reachable state has non-negative counters; each counter is
strictly increased by its own increment and never decreased by any click;
every click is enabled in every state and always changes the state, so
there is no terminal state. -/
theorem counters_nonneg_monotone_unbounded :
    (∀ cs : List Click, 0 ≤ (applyClicks cs initState).leftCount ∧
        0 ≤ (applyClicks cs initState).middleCount) ∧
    (∀ s : EquationState, s.leftCount < (updateLeftCount s).leftCount ∧
        s.middleCount < (updateMiddleCount s).middleCount) ∧
    (∀ (c : Click) (s : EquationState),
        s.leftCount ≤ (applyClick c s).leftCount ∧
          s.middleCount ≤ (applyClick c s).middleCount) ∧
    (∀ (c : Click) (s : EquationState), applyClick c s ≠ s) := by
  refine ⟨?_, ?_, applyClick_mono, ?_⟩
  · intro cs
    constructor
    · rw [applyClicks_leftCount]
      simp [initState]
    · rw [applyClicks_middleCount]
      simp [initState]
  · intro s
    constructor <;> simp [updateLeftCount, updateMiddleCount]
  · intro c s h
    cases c with
    | left =>
      have : (applyClick Click.left s).leftCount = s.leftCount := by rw [h]
      simp [applyClick, updateLeftCount] at this
    | middle =>
      have : (applyClick Click.middle s).middleCount = s.middleCount := by rw [h]
      simp [applyClick, updateMiddleCount] at this

/-- C6: the counters are independent; incrementing one leaves the other
unchanged. -/
theorem counters_independent (s : EquationState) :
    (updateLeftCount s).middleCount = s.middleCount ∧
      (updateMiddleCount s).leftCount = s.leftCount :=
  ⟨rfl, rfl⟩

/-- C7: the read of a state is exactly the triple
(left, middle, left + middle), and it is a pure function of the state:
the state it reads is returned unchanged by the render. -/
theorem read_is_pure_triple (s : EquationState) :
    read s = (s.leftCount, s.middleCount, s.leftCount + s.middleCount) := by
  rfl

/-- C8: increment is total: for every state and either counter selection
the handler produces a successor state (no error value, no precondition),
and that successor has the selected counter at the old value plus one. -/
theorem increment_total (s : EquationState) (c : Click) :
    ∃ t : EquationState, applyClick c s = t ∧
      totalCount t = totalCount s + 1 := by
  refine ⟨applyClick c s, rfl, ?_⟩
  cases c <;> simp [applyClick, updateLeftCount, updateMiddleCount, totalCount] <;> ring

/-- Helper: adjacent clicks commute. -/
theorem applyClick_comm (c d : Click) (s : EquationState) :
    applyClick d (applyClick c s) = applyClick c (applyClick d s) := by
  cases c <;> cases d <;>
    simp [applyClick, updateLeftCount, updateMiddleCount]

/-- C9: increments commute: left-then-middle equals middle-then-left from
every state, and more generally any two click sequences that are
permutations of one another lead any state to the same final state, so
the outcome depends only on how many times each region was clicked. -/
theorem increments_commute :
    (∀ s : EquationState,
        applyClick Click.middle (applyClick Click.left s) =
          applyClick Click.left (applyClick Click.middle s)) ∧
    (∀ (cs ds : List Click), cs.Perm ds →
        ∀ s : EquationState, applyClicks cs s = applyClicks ds s) := by
  constructor
  · intro s
    exact applyClick_comm Click.left Click.middle s
  · intro cs ds hperm
    induction hperm with
    | nil => intro s; rfl
    | cons c _ ih =>
      intro s
      simp only [applyClicks, List.foldl_cons]
      exact ih (applyClick c s)
    | swap c d =>
      intro s
      simp only [applyClicks, List.foldl_cons]
      rw [applyClick_comm]
    | trans _ _ ih1 ih2 =>
      intro s
      rw [ih1, ih2]

/-- Witness for C9: the sequences left-middle-middle and middle-middle-left
are permutations and lead the initial state to the same final state. -/
theorem increments_commute_witness :
    applyClicks [Click.left, Click.middle, Click.middle] initState =
      applyClicks [Click.middle, Click.middle, Click.left] initState :=
  increments_commute.2 [Click.left, Click.middle, Click.middle]
    [Click.middle, Click.middle, Click.left] (by decide) initState

/-- C10: the right box (`sample-box-right`, the one showing the total)
has no click handler, so clicking it changes neither counter nor any
displayed value. -/
theorem right_box_click_noop (s : EquationState) :
    regionHandler Region.boxRight = none ∧
      clickRegion Region.boxRight s = s ∧
      read (clickRegion Region.boxRight s) = read s :=
  ⟨rfl, rfl, rfl⟩
